import Mathlib

/-!
Shallow embedding of the moments.be event-photo-sharing backend:
the Prisma data model (prisma/schema.prisma) and the request handlers
of `src/controllers/events.ts` and the enum-based images controller
(`uploadImageToEvent`), together with the central error translator of
`src/index.ts`.

Conventions of the embedding:
  * database ids and timestamps are opaque `String`s (uuids / dates);
  * the Prisma store is a `DB` record of three row lists;
  * each Express handler becomes a pure function `DB → … → Except ApiError DB`
    (an error response leaves the store untouched, matching the fact that
    every handler performs its writes only after all of its checks);
  * JavaScript truthiness on nullable fields (`maxAttendees || null`,
    `if (eventWithCount.joinCode)`, …) is modelled explicitly by
    `jsTruthyInt` / `jsTruthyStr`, since `0` and `""` are falsy;
  * the `@@unique([eventId, userId])` constraint of `EventParticipant`
    makes `prisma.eventParticipant.create` throw a non-`ErrorLib` error on a
    duplicate pair; the central error middleware of `src/index.ts` turns any
    such error into a 500 "Server Error" response (`ApiError.PrismaError`).
-/

inductive EventVisibility where
  | PRIVATE
  | PUBLIC
  | INVITE_ONLY
deriving DecidableEq, Repr

inductive ParticipantStatus where
  | PENDING
  | JOINED
  | DECLINED
  | LEFT
deriving DecidableEq, Repr

inductive GalleryStyle where
  | SCRAPBOOK
  | GRID
  | TIMELINE
deriving DecidableEq, Repr

/-- `model Event` of `prisma/schema.prisma` (creation/update timestamps
and the deprecated backward-compatibility relation omitted as inert). -/
structure Event where
  id : String
  name : String
  description : Option String
  location : Option String
  startDate : Option String
  endDate : Option String
  creatorId : String
  visibility : EventVisibility
  isPublicGallery : Bool
  maxAttendees : Option Int
  maxPhotosPerAttendee : Option Int
  galleryStyle : GalleryStyle
  allowComments : Bool
  coverImageUrl : Option String
  allowJoining : Bool
  joinCode : Option String
  joinCodeExpiresAt : Option String
  features : List String
deriving DecidableEq, Repr

/-- `model EventParticipant` of `prisma/schema.prisma`; the `Json?` metadata
blob is opaque. -/
structure EventParticipant where
  id : String
  eventId : String
  userId : String
  status : ParticipantStatus
  joinedAt : String
  leftAt : Option String
  role : String
  metadata : Option String
deriving DecidableEq, Repr

/-- `model Image` of `prisma/schema.prisma`. -/
structure Image where
  id : String
  url : String
  publicId : String
  description : Option String
  mediaType : String
  width : Option Int
  height : Option Int
  size : Option Int
  format : Option String
  uploaderId : String
  eventId : Option String
deriving DecidableEq, Repr

/-- The relational store: the three tables the event/image handlers touch. -/
structure DB where
  events : List Event
  participants : List EventParticipant
  images : List Image
deriving DecidableEq, Repr

/-- Error taxonomy of `src/libs/Error.Lib.ts`, plus `PrismaError` for an
ORM-thrown error that is not an `ErrorLib` instance (e.g. a unique-constraint
violation). -/
inductive ApiError where
  | BadRequest (msg : String)
  | Unauthorized (msg : String)
  | Forbidden (msg : String)
  | NotFound (msg : String)
  | Conflict (msg : String)
  | PrismaError (msg : String)
deriving DecidableEq, Repr

/-- HTTP status assigned by the error middleware of `src/index.ts`:
`ErrorLib` errors carry their own code, anything else becomes 500. -/
def ApiError.statusCode : ApiError → Nat
  | .BadRequest _ => 400
  | .Unauthorized _ => 401
  | .Forbidden _ => 403
  | .NotFound _ => 404
  | .Conflict _ => 409
  | .PrismaError _ => 500

/-- Response body message assigned by the error middleware of `src/index.ts`:
`ErrorLib` errors report their own message, anything else reports the
generic "Server Error". -/
def ApiError.responseMessage : ApiError → String
  | .BadRequest m => m
  | .Unauthorized m => m
  | .Forbidden m => m
  | .NotFound m => m
  | .Conflict m => m
  | .PrismaError _ => "Server Error"

/-- JavaScript truthiness of a nullable string: `null`, `undefined` and `""`
are falsy. -/
def jsTruthyStr : Option String → Bool
  | none => false
  | some s => s ≠ ""

/-- JavaScript truthiness of a nullable integer: `null`, `undefined` and `0`
are falsy. -/
def jsTruthyInt : Option Int → Bool
  | none => false
  | some n => n ≠ 0

/-- `prisma.event.findUnique({ where: { id } })`. -/
def findEvent (db : DB) (id : String) : Option Event :=
  db.events.find? (fun e => e.id == id)

/-- The currently JOINED participant rows of an event (the filtered
`participants` include / `_count` used throughout `events.ts`). -/
def joinedParticipants (db : DB) (eventId : String) : List EventParticipant :=
  db.participants.filter (fun p => p.eventId == eventId && p.status == ParticipantStatus.JOINED)

/-- `_count.participants` with the `status: JOINED` filter, as selected by
`joinEvent`. -/
def countJoined (db : DB) (eventId : String) : Nat :=
  (joinedParticipants db eventId).length

/-- `getEventById` of `src/controllers/events.ts` (lines 179-242): fetch the
event; the access check denies only a PRIVATE event whose gallery is not
public, and then only to a requester who is neither the creator nor a
JOINED participant. -/
def getEventById (db : DB) (userId : Option String) (id : String) : Except ApiError Event :=
  match findEvent db id with
  | none => .error (.NotFound "Event")
  | some event =>
    if event.visibility == EventVisibility.PRIVATE && !event.isPublicGallery then
      let isCreator := userId == some event.creatorId
      let isParticipant := (joinedParticipants db id).any (fun p => some p.userId == userId)
      if !isCreator && !isParticipant then
        .error (.Forbidden "Access denied")
      else
        .ok event
    else
      .ok event

/-- Body of `POST /events` (`CreateEventInput` of `events.ts`): every field
optional except that a falsy `name` is rejected by the handler. -/
structure CreateEventInput where
  name : Option String
  description : Option String
  location : Option String
  startDate : Option String
  endDate : Option String
  visibility : Option EventVisibility
  isPublicGallery : Option Bool
  maxAttendees : Option Int
  maxPhotosPerAttendee : Option Int
  galleryStyle : Option GalleryStyle
  features : Option (List String)
  allowComments : Option Bool
  allowJoining : Option Bool
  coverImageUrl : Option String
deriving Repr

/-- `createEvent` of `src/controllers/events.ts` (lines 61-128): creates the
event row with the handler's defaulting (`maxAttendees || null` uses JS
truthiness, so a supplied 0 is stored as null; `joinCode` is not settable
here) and then the creator's participant row with status JOINED, role
ADMIN. Fresh row ids and the clock are passed in. -/
def createEvent (db : DB) (userId : Option String) (input : CreateEventInput)
    (eventId participantId now : String) : Except ApiError DB :=
  match userId with
  | none => .error (.Unauthorized "Authentication required")
  | some uid =>
    if !jsTruthyStr input.name then
      .error (.BadRequest "Event name is required")
    else
      let event : Event :=
        { id := eventId
          name := input.name.getD ""
          description := input.description
          location := input.location
          startDate := if jsTruthyStr input.startDate then input.startDate else none
          endDate := if jsTruthyStr input.endDate then input.endDate else none
          creatorId := uid
          visibility := input.visibility.getD EventVisibility.PRIVATE
          isPublicGallery := input.isPublicGallery.getD false
          maxAttendees := if jsTruthyInt input.maxAttendees then input.maxAttendees else none
          maxPhotosPerAttendee :=
            if jsTruthyInt input.maxPhotosPerAttendee then input.maxPhotosPerAttendee else none
          galleryStyle := input.galleryStyle.getD GalleryStyle.SCRAPBOOK
          allowComments := input.allowComments.getD false
          coverImageUrl := input.coverImageUrl
          allowJoining := input.allowJoining.getD false
          joinCode := none
          joinCodeExpiresAt := none
          features := input.features.getD [] }
      let row : EventParticipant :=
        { id := participantId
          eventId := eventId
          userId := uid
          status := ParticipantStatus.JOINED
          joinedAt := now
          leftAt := none
          role := "ADMIN"
          metadata := none }
      .ok { db with
              events := db.events ++ [event]
              participants := db.participants ++ [row] }

/-- Body of `PUT /events/:id` (`UpdateEventInput` of `events.ts`): the TS
interface extends `Partial<CreateEventInput>` and adds nullable
`joinCode` / `joinCodeExpiresAt`, so `allowJoining`, `joinCode` and
`joinCodeExpiresAt` are all declared as updatable inputs. -/
structure UpdateEventInput where
  name : Option String
  description : Option String
  location : Option String
  startDate : Option String
  endDate : Option String
  visibility : Option EventVisibility
  isPublicGallery : Option Bool
  maxAttendees : Option Int
  maxPhotosPerAttendee : Option Int
  galleryStyle : Option GalleryStyle
  features : Option (List String)
  allowComments : Option Bool
  allowJoining : Option Bool
  coverImageUrl : Option String
  joinCode : Option (Option String)
  joinCodeExpiresAt : Option (Option String)
deriving Repr

/-- The `data` object built by `updateEvent` (lines 334-350): absent fields
are passed to the ORM as `undefined`, which leaves the column unchanged.
The handler's destructuring (lines 318-332) never reads `allowJoining`,
`joinCode` or `joinCodeExpiresAt`, so those three inputs are dropped. -/
def applyUpdate (e : Event) (patch : UpdateEventInput) : Event :=
  { e with
      name := patch.name.getD e.name
      description := match patch.description with
        | none => e.description
        | some s => some s
      location := match patch.location with
        | none => e.location
        | some s => some s
      startDate := if jsTruthyStr patch.startDate then patch.startDate else e.startDate
      endDate := if jsTruthyStr patch.endDate then patch.endDate else e.endDate
      visibility := patch.visibility.getD e.visibility
      isPublicGallery := patch.isPublicGallery.getD e.isPublicGallery
      maxAttendees := match patch.maxAttendees with
        | none => e.maxAttendees
        | some n => some n
      maxPhotosPerAttendee := match patch.maxPhotosPerAttendee with
        | none => e.maxPhotosPerAttendee
        | some n => some n
      galleryStyle := patch.galleryStyle.getD e.galleryStyle
      features := patch.features.getD e.features
      allowComments := patch.allowComments.getD e.allowComments
      coverImageUrl := match patch.coverImageUrl with
        | none => e.coverImageUrl
        | some s => some s }

/-- `updateEvent` of `src/controllers/events.ts` (lines 295-365): NotFound if
the event is absent, Forbidden unless the requester is the creator, else
apply the patch to the stored row. -/
def updateEvent (db : DB) (userId : Option String) (id : String)
    (patch : UpdateEventInput) : Except ApiError DB :=
  match findEvent db id with
  | none => .error (.NotFound "Event")
  | some e =>
    if userId != some e.creatorId then
      .error (.Forbidden "Access denied")
    else
      .ok { db with
              events := db.events.map (fun ev => if ev.id == id then applyUpdate ev patch else ev) }

/-- The row update performed by the rejoin branch of `joinEvent`:
`{ status: JOINED, leftAt: null }` on the row with the given primary key. -/
def setJoined (rowId : String) (q : EventParticipant) : EventParticipant :=
  if q.id == rowId then { q with status := ParticipantStatus.JOINED, leftAt := none } else q

/-- The row update performed by `leaveEvent`:
`{ status: LEFT, leftAt: now }` on the row with the given primary key. -/
def setLeft (rowId now : String) (q : EventParticipant) : EventParticipant :=
  if q.id == rowId then { q with status := ParticipantStatus.LEFT, leftAt := some now } else q

/-- `prisma.eventParticipant.findFirst({ where: { eventId, userId } })`. -/
def findParticipation (db : DB) (eventId uid : String) : Option EventParticipant :=
  db.participants.find? (fun p => p.eventId == eventId && p.userId == uid)

/-- The row built by `prisma.eventParticipant.create` in `joinEvent`. -/
def newJoinRow (newRowId eventId uid role now : String) : EventParticipant :=
  { id := newRowId
    eventId := eventId
    userId := uid
    status := ParticipantStatus.JOINED
    joinedAt := now
    leftAt := none
    role := role
    metadata := none }

/-- The tail of `joinEvent` (lines 439-462): the allowJoining, join-code and
capacity checks, then `prisma.eventParticipant.create`. The create throws a
non-`ErrorLib` unique-constraint error when a row for (eventId, userId)
already exists, per `@@unique([eventId, userId])` in the schema. -/
def joinCreate (db : DB) (uid : String) (event : Event) (suppliedCode : Option String)
    (newRowId now : String) : Except ApiError DB :=
  if !event.allowJoining && !(event.creatorId == uid) then
    .error (.Forbidden "This event is not accepting new participants")
  else if jsTruthyStr event.joinCode && !(event.joinCode == suppliedCode) then
    .error (.Forbidden "Invalid join code")
  else if jsTruthyInt event.maxAttendees
      ∧ (event.maxAttendees.getD 0 : Int) ≤ (countJoined db event.id : Int) then
    .error (.BadRequest "This event has reached maximum capacity")
  else
    match findParticipation db event.id uid with
    | some _ => .error (.PrismaError "Unique constraint failed on the fields: eventId, userId")
    | none =>
      .ok { db with
              participants := db.participants ++
                [newJoinRow newRowId event.id uid
                  (if event.creatorId == uid then "ADMIN" else "ATTENDEE") now] }

/-- `joinEvent` of `src/controllers/events.ts` (lines 367-471): a JOINED row
is rejected, a LEFT row is flipped back to JOINED bypassing every later
check, any other existing row (PENDING/DECLINED) falls through to the
checks and the create. -/
def joinEvent (db : DB) (userId : Option String) (eventId : String)
    (suppliedCode : Option String) (newRowId now : String) : Except ApiError DB :=
  match userId with
  | none => .error (.Unauthorized "Authentication required")
  | some uid =>
    match findEvent db eventId with
    | none => .error (.NotFound "Event not found")
    | some event =>
      match findParticipation db eventId uid with
      | some p =>
        if p.status == ParticipantStatus.JOINED then
          .error (.BadRequest "You are already a participant of this event")
        else if p.status == ParticipantStatus.LEFT then
          .ok { db with participants := db.participants.map (setJoined p.id) }
        else
          joinCreate db uid event suppliedCode newRowId now
      | none => joinCreate db uid event suppliedCode newRowId now

/-- `leaveEvent` of `src/controllers/events.ts` (lines 473-515): requires an
existing JOINED row (no creator exemption), then marks it LEFT with a
`leftAt` stamp instead of deleting it. -/
def leaveEvent (db : DB) (userId : Option String) (eventId now : String) : Except ApiError DB :=
  match userId with
  | none => .error (.Unauthorized "Authentication required")
  | some uid =>
    match db.participants.find?
        (fun p => p.eventId == eventId && p.userId == uid
          && p.status == ParticipantStatus.JOINED) with
    | none => .error (.BadRequest "You are not a participant of this event")
    | some p => .ok { db with participants := db.participants.map (setLeft p.id now) }

/-- `prisma.eventParticipant.deleteMany({ where: { eventId } })`. -/
def deleteParticipantsFor (db : DB) (eventId : String) : DB :=
  { db with participants := db.participants.filter (fun p => !(p.eventId == eventId)) }

/-- `prisma.image.deleteMany({ where: { eventId } })`. -/
def deleteImagesFor (db : DB) (eventId : String) : DB :=
  { db with images := db.images.filter (fun i => !(i.eventId == some eventId)) }

/-- `prisma.event.delete({ where: { id } })`. -/
def deleteEventRow (db : DB) (eventId : String) : DB :=
  { db with events := db.events.filter (fun e => !(e.id == eventId)) }

/-- `deleteEvent` of `src/controllers/events.ts` (lines 244-293): after the
existence and creator checks, delete participants first, then images, then
the event row, in that order. -/
def deleteEvent (db : DB) (userId : Option String) (id : String) : Except ApiError DB :=
  match userId with
  | none => .error (.Unauthorized "Authentication required")
  | some uid =>
    match findEvent db id with
    | none => .error (.NotFound "Event not found")
    | some event =>
      if !(event.creatorId == uid) then
        .error (.Forbidden "Only the event creator can delete this event")
      else
        .ok (deleteEventRow (deleteImagesFor (deleteParticipantsFor db id) id) id)

/-- The multipart file of an upload request; only the MIME type matters to
the embedded logic. -/
structure UploadFile where
  mimetype : String
deriving Repr

/-- The media row recorded by `uploadImageToEvent`: `description || ''`
defaults the description, the media type is derived from the MIME type. -/
def uploadedImage (newImageId url publicId uid eventId : String)
    (description : Option String) (f : UploadFile) : Image :=
  { id := newImageId
    url := url
    publicId := publicId
    description := some (description.getD "")
    mediaType := if f.mimetype.startsWith "video/" then "video" else "image"
    width := none
    height := none
    size := none
    format := none
    uploaderId := uid
    eventId := some eventId }

/-- `uploadImageToEvent` of the enum-based images controller (the variant
imported by the current `routes/images.ts`, which checks
`eventParticipant.findFirst({ where: { eventId, userId, status: JOINED } })`):
BadRequest without a file, Unauthorized without a user, NotFound without the
event, Forbidden without a JOINED membership row, else record the uploaded
media against the event. The storage upload result (`url`, `publicId`) and
the fresh row id are passed in. -/
def uploadImageToEvent (db : DB) (userId : Option String) (file : Option UploadFile)
    (eventId : String) (description : Option String)
    (newImageId url publicId : String) : Except ApiError DB :=
  match file with
  | none => .error (.BadRequest "Upload")
  | some f =>
    match userId with
    | none => .error (.Unauthorized "Auth")
    | some uid =>
      match findEvent db eventId with
      | none => .error (.NotFound "Event")
      | some _ =>
        match db.participants.find?
            (fun p => p.eventId == eventId && p.userId == uid
              && p.status == ParticipantStatus.JOINED) with
        | none => .error (.Forbidden "Access")
        | some _ =>
          .ok { db with images := db.images ++ [uploadedImage newImageId url publicId uid eventId description f] }

/-- One membership-changing request: a join or a leave by some authenticated
user against some event. -/
inductive Op where
  | join (userId eventId : String) (suppliedCode : Option String) (newRowId now : String)
  | leave (userId eventId now : String)
deriving Repr

/-- Run one request against the store; a request that errors leaves the
store unchanged (each handler writes only after all of its checks). -/
def applyOp (db : DB) : Op → DB
  | .join u e c r t =>
    match joinEvent db (some u) e c r t with
    | .ok db' => db'
    | .error _ => db
  | .leave u e t =>
    match leaveEvent db (some u) e t with
    | .ok db' => db'
    | .error _ => db

/-- Run a sequence of join/leave requests. -/
def runOps (db : DB) (ops : List Op) : DB :=
  ops.foldl applyOp db

/-- Row predicate for one (event, user) pair. -/
def pairPred (eventId uid : String) (p : EventParticipant) : Bool :=
  p.eventId == eventId && p.userId == uid

/-- All membership rows of one (event, user) pair. -/
def pairRows (db : DB) (eventId uid : String) : List EventParticipant :=
  db.participants.filter (pairPred eventId uid)

/-- The creator holds a membership row for the event with role ADMIN whose
status is JOINED or LEFT. -/
def creatorAdminRow (db : DB) (eventId uid : String) : Prop :=
  ∃ p ∈ db.participants, p.eventId = eventId ∧ p.userId = uid ∧ p.role = "ADMIN" ∧
    (p.status = ParticipantStatus.JOINED ∨ p.status = ParticipantStatus.LEFT)

/-- Membership-ledger invariant for one (event, user) pair: at most one row,
and its status stays in the JOINED/LEFT cycle. -/
def membershipInv (db : DB) (eventId uid : String) : Prop :=
  (pairRows db eventId uid).length ≤ 1 ∧
  ∀ p ∈ pairRows db eventId uid,
    p.status = ParticipantStatus.JOINED ∨ p.status = ParticipantStatus.LEFT

/-! ### Concrete states used by counterexamples and witnesses -/

/-- The empty store. -/
def emptyDB : DB := { events := [], participants := [], images := [] }

/-- A baseline event: creator "A", the handler defaults of `createEvent`
(PRIVATE, no public gallery, joining closed, no join code, no cap). -/
def baseEvent : Event :=
  { id := "e1"
    name := "Reunion"
    description := none
    location := none
    startDate := none
    endDate := none
    creatorId := "A"
    visibility := EventVisibility.PRIVATE
    isPublicGallery := false
    maxAttendees := none
    maxPhotosPerAttendee := none
    galleryStyle := GalleryStyle.SCRAPBOOK
    allowComments := false
    coverImageUrl := none
    allowJoining := false
    joinCode := none
    joinCodeExpiresAt := none
    features := [] }

/-- A membership row fixture. -/
def mkRow (rid eid uid : String) (st : ParticipantStatus) (role : String) : EventParticipant :=
  { id := rid
    eventId := eid
    userId := uid
    status := st
    joinedAt := "t0"
    leftAt := none
    role := role
    metadata := none }

/-- A `POST /events` body supplying only the name. -/
def reunionInput : CreateEventInput :=
  { name := some "Reunion"
    description := none
    location := none
    startDate := none
    endDate := none
    visibility := none
    isPublicGallery := none
    maxAttendees := none
    maxPhotosPerAttendee := none
    galleryStyle := none
    features := none
    allowComments := none
    allowJoining := none
    coverImageUrl := none }

/-- A `PUT /events/:id` body supplying only `allowJoining = true`. -/
def allowJoiningPatch : UpdateEventInput :=
  { name := none
    description := none
    location := none
    startDate := none
    endDate := none
    visibility := none
    isPublicGallery := none
    maxAttendees := none
    maxPhotosPerAttendee := none
    galleryStyle := none
    features := none
    allowComments := none
    allowJoining := some true
    coverImageUrl := none
    joinCode := none
    joinCodeExpiresAt := none }

/-- A PUBLIC event whose gallery flag is off. -/
def publicNoGalleryEvent : Event :=
  { baseEvent with visibility := EventVisibility.PUBLIC, isPublicGallery := false }

/-- Store holding only `publicNoGalleryEvent`, with no memberships at all. -/
def publicNoGalleryDB : DB :=
  { events := [publicNoGalleryEvent], participants := [], images := [] }

/-- Store holding a PRIVATE joinable event with `maxAttendees = 0`. -/
def capZeroDB : DB :=
  { events := [{ baseEvent with allowJoining := true, maxAttendees := some 0 }]
    participants := []
    images := [] }

/-- Store holding a joinable event with `maxAttendees = 1` already at capacity. -/
def capOneFullDB : DB :=
  { events := [{ baseEvent with allowJoining := true, maxAttendees := some 1 }]
    participants := [mkRow "p1" "e1" "C" ParticipantStatus.JOINED "ATTENDEE"]
    images := [] }

/-- Store holding a joinable event whose join code is the empty string. -/
def emptyCodeDB : DB :=
  { events := [{ baseEvent with allowJoining := true, joinCode := some "" }]
    participants := []
    images := [] }

/-- A joinable event whose join code is "zzz". -/
def codeZzzEvent : Event := { baseEvent with allowJoining := true, joinCode := some "zzz" }

/-- Store holding a joinable event whose join code is "zzz". -/
def codeZzzDB : DB :=
  { events := [codeZzzEvent]
    participants := []
    images := [] }

/-- Store where user "B" has a LEFT row on an event that is closed to
joining, has a join code and is at capacity. -/
def leftRowHostileDB : DB :=
  { events := [{ baseEvent with maxAttendees := some 1, joinCode := some "zzz" }]
    participants := [{ mkRow "p1" "e1" "B" ParticipantStatus.LEFT "ATTENDEE" with
                         leftAt := some "t1" }]
    images := [] }

/-- Store where user "B" has a PENDING row on a joinable event. -/
def pendingRowDB : DB :=
  { events := [{ baseEvent with allowJoining := true }]
    participants := [mkRow "p1" "e1" "B" ParticipantStatus.PENDING "ATTENDEE"]
    images := [] }

/-- Store for the upload rule: creator "A" JOINED, user "B" has a LEFT row. -/
def uploadDB : DB :=
  { events := [{ baseEvent with allowJoining := true }]
    participants := [mkRow "p1" "e1" "B" ParticipantStatus.LEFT "ATTENDEE",
                     mkRow "p2" "e1" "A" ParticipantStatus.JOINED "ADMIN"]
    images := [] }

/-- An image row attached to event "e1". -/
def imgOnE1 : Image :=
  { id := "i1"
    url := "u"
    publicId := "pu"
    description := none
    mediaType := "image"
    width := none
    height := none
    size := none
    format := none
    uploaderId := "A"
    eventId := some "e1" }

/-- Store with an event, its creator membership and one image, ready for
deletion. -/
def deletableDB : DB :=
  { events := [baseEvent]
    participants := [mkRow "p1" "e1" "A" ParticipantStatus.JOINED "ADMIN"]
    images := [imgOnE1] }

/-- Store as produced by `createEvent emptyDB (some "A") reunionInput
"e1" "p1" "t0"`. -/
def createdDB : DB :=
  { events := [baseEvent]
    participants := [mkRow "p1" "e1" "A" ParticipantStatus.JOINED "ADMIN"]
    images := [] }

/-- The creator's row after the creator has left their own event. -/
def leftAdminRow : EventParticipant :=
  { mkRow "p1" "e1" "A" ParticipantStatus.LEFT "ADMIN" with leftAt := some "t1" }

/-- The store after create followed by the creator's leave. -/
def dbAfterCreatorLeft : DB :=
  { events := [baseEvent], participants := [leftAdminRow], images := [] }

/-! ### Theorems -/

/-- C1 counterexample: an anonymous requester — neither creator nor JOINED
member — reads a PUBLIC event whose `isPublicGallery` flag is false and gets
the event back, where the claim demands Forbidden whenever the flag is
false, for every visibility value. -/
theorem getEventById_public_event_readable_without_gallery :
    publicNoGalleryEvent.isPublicGallery = false ∧
    publicNoGalleryEvent.visibility = EventVisibility.PUBLIC ∧
    publicNoGalleryDB.participants = [] ∧
    getEventById publicNoGalleryDB none "e1" = .ok publicNoGalleryEvent :=
  ⟨rfl, rfl, rfl, rfl⟩

/-- C2 counterexample: from event creation, the single join/leave operation
`leaveEvent` invoked by the creator reaches a state in which the creator's
only membership row has status LEFT, not JOINED. -/
theorem creator_leave_reaches_left_status :
    createEvent emptyDB (some "A") reunionInput "e1" "p1" "t0" = .ok createdDB ∧
    runOps createdDB [Op.leave "A" "e1" "t1"] = dbAfterCreatorLeft ∧
    pairRows dbAfterCreatorLeft "e1" "A" = [leftAdminRow] ∧
    leftAdminRow.status = ParticipantStatus.LEFT :=
  ⟨rfl, rfl, rfl, rfl⟩

/-- C5: the spec's scenario evaluated on the code. Creator "A" sends a
partial update supplying `allowJoining = true`; the handler returns success
but the stored event still has `allowJoining = false` (the destructuring in
`updateEvent` never reads `allowJoining`), so non-member "B"'s subsequent
join is rejected with Forbidden instead of succeeding. -/
theorem updateEvent_drops_allowJoining :
    allowJoiningPatch.allowJoining = some true ∧
    updateEvent createdDB (some "A") "e1" allowJoiningPatch = .ok createdDB ∧
    (findEvent createdDB "e1").map Event.allowJoining = some false ∧
    joinEvent createdDB (some "B") "e1" none "r2" "t2" =
      .error (.Forbidden "This event is not accepting new participants") :=
  ⟨rfl, rfl, rfl, rfl⟩

/-- C6 counterexample: an event with `maxAttendees = 0` and 0 JOINED
participants (so the JOINED count is ≥ the cap) admits a fresh requester,
where the claim demands BadRequest for every non-null cap including 0:
`maxAttendees || null`-style truthiness skips the capacity check at 0. -/
theorem joinEvent_capacity_zero_not_enforced :
    (findEvent capZeroDB "e1").map Event.maxAttendees = some (some 0) ∧
    countJoined capZeroDB "e1" = 0 ∧
    findParticipation capZeroDB "e1" "B" = none ∧
    joinEvent capZeroDB (some "B") "e1" none "r1" "t1" =
      .ok { capZeroDB with
              participants := [{ mkRow "r1" "e1" "B" ParticipantStatus.JOINED "ATTENDEE" with
                                   joinedAt := "t1" }] } :=
  ⟨rfl, rfl, rfl, rfl⟩

/-- C7 counterexample: an event whose join code is the non-null empty string
admits a fresh requester who supplies no code at all, where the claim
demands Forbidden for every non-null code: the truthiness test
`if (eventWithCount.joinCode)` skips the check at `""`. -/
theorem joinEvent_empty_join_code_not_enforced :
    (findEvent emptyCodeDB "e1").map Event.joinCode = some (some "") ∧
    findParticipation emptyCodeDB "e1" "B" = none ∧
    joinEvent emptyCodeDB (some "B") "e1" none "r1" "t1" =
      .ok { emptyCodeDB with
              participants := [{ mkRow "r1" "e1" "B" ParticipantStatus.JOINED "ATTENDEE" with
                                   joinedAt := "t1" }] } :=
  ⟨rfl, rfl, rfl⟩

/-- An event found by id carries that id. -/
lemma findEvent_id {db : DB} {id : String} {e : Event} (h : findEvent db id = some e) :
    e.id = id := by
  unfold findEvent at h
  simpa [beq_iff_eq] using List.find?_some h

/-- C1 (amended): for a requester who is neither the creator nor a JOINED
member of the event, `getEventById` succeeds iff the event's gallery is
public OR its visibility is not PRIVATE; only a PRIVATE event with a
non-public gallery is Forbidden to such a requester. -/
theorem getEventById_nonmember_read_rule
    (db : DB) (uid : Option String) (id : String) (e : Event)
    (hfind : findEvent db id = some e)
    (hcreator : uid ≠ some e.creatorId)
    (hmember : ∀ p ∈ db.participants,
      p.eventId = id → p.status = ParticipantStatus.JOINED → some p.userId ≠ uid) :
    (getEventById db uid id = .ok e ↔
      (e.isPublicGallery = true ∨ e.visibility ≠ EventVisibility.PRIVATE)) ∧
    (e.visibility = EventVisibility.PRIVATE → e.isPublicGallery = false →
      getEventById db uid id = .error (.Forbidden "Access denied")) := by
  have hcr : (uid == some e.creatorId) = false := by
    simpa using hcreator
  have hpart : ((joinedParticipants db id).any fun p => some p.userId == uid) = false := by
    rw [List.any_eq_false]
    intro p hp
    rw [joinedParticipants, List.mem_filter, Bool.and_eq_true, beq_iff_eq, beq_iff_eq] at hp
    simpa using hmember p hp.1 hp.2.1 hp.2.2
  have hres : getEventById db uid id =
      if e.visibility == EventVisibility.PRIVATE && !e.isPublicGallery then
        .error (.Forbidden "Access denied")
      else .ok e := by
    unfold getEventById
    rw [hfind]
    by_cases hv : (e.visibility == EventVisibility.PRIVATE && !e.isPublicGallery) = true
    · simp [hv, hcr, hpart]
    · rw [Bool.not_eq_true] at hv
      simp [hv]
  rw [hres]
  by_cases hv : e.visibility = EventVisibility.PRIVATE ∧ e.isPublicGallery = false
  · have hb : (e.visibility == EventVisibility.PRIVATE && !e.isPublicGallery) = true := by
      simp [hv.1, hv.2]
    refine ⟨?_, fun _ _ => by simp [hb]⟩
    simp [hb, hv.1, hv.2]
  · rcases Decidable.not_and_iff_or_not.mp hv with h | h
    · have hb : (e.visibility == EventVisibility.PRIVATE && !e.isPublicGallery) = false := by
        simp [beq_eq_false_iff_ne, h]
      exact ⟨by simp [hb, h], fun h1 _ => absurd h1 h⟩
    · have hg : e.isPublicGallery = true := by
        cases hgb : e.isPublicGallery
        · exact absurd hgb h
        · rfl
      have hb : (e.visibility == EventVisibility.PRIVATE && !e.isPublicGallery) = false := by
        simp [hg]
      exact ⟨by simp [hb, hg], fun _ h2 => by rw [hg] at h2; cases h2⟩

/-- C1 witness: the amended read rule applied at a PRIVATE no-gallery event
for requester "B", who is not the creator and holds only a LEFT row; the
read is Forbidden. -/
theorem getEventById_nonmember_read_rule_witness :
    (getEventById uploadDB (some "B") "e1" =
        .ok { baseEvent with allowJoining := true } ↔
      (({ baseEvent with allowJoining := true } : Event).isPublicGallery = true ∨
        ({ baseEvent with allowJoining := true } : Event).visibility ≠
          EventVisibility.PRIVATE)) ∧
    (({ baseEvent with allowJoining := true } : Event).visibility =
        EventVisibility.PRIVATE →
      ({ baseEvent with allowJoining := true } : Event).isPublicGallery = false →
      getEventById uploadDB (some "B") "e1" = .error (.Forbidden "Access denied")) :=
  getEventById_nonmember_read_rule uploadDB (some "B") "e1"
    { baseEvent with allowJoining := true } (by rfl) (by decide) (by decide)

/-- A found participation row is in the table and matches the pair. -/
lemma findParticipation_some {db : DB} {E uid : String} {p : EventParticipant}
    (h : findParticipation db E uid = some p) :
    p ∈ db.participants ∧ p.eventId = E ∧ p.userId = uid := by
  unfold findParticipation at h
  refine ⟨List.mem_of_find?_eq_some h, ?_⟩
  have := List.find?_some h
  simpa [Bool.and_eq_true, beq_iff_eq] using this

/-- C4: a requester whose existing membership row has status LEFT always
rejoins successfully — for every event configuration (any `allowJoining`,
any `joinCode` whether or not a code is supplied, any `maxAttendees`) — and
the effect is exactly flipping that row to JOINED with `leftAt` cleared,
with no new row created. -/
theorem joinEvent_left_always_rejoins
    (db : DB) (uid E : String) (code : Option String) (rid now : String)
    (event : Event) (p : EventParticipant)
    (hev : findEvent db E = some event)
    (hp : findParticipation db E uid = some p)
    (hst : p.status = ParticipantStatus.LEFT) :
    joinEvent db (some uid) E code rid now =
      .ok { db with participants := db.participants.map (setJoined p.id) } ∧
    { p with status := ParticipantStatus.JOINED, leftAt := none } ∈
      db.participants.map (setJoined p.id) ∧
    (db.participants.map (setJoined p.id)).length = db.participants.length := by
  have hmem := (findParticipation_some hp).1
  refine ⟨?_, ?_, List.length_map _ _⟩
  · simp only [joinEvent, hev, hp]
    rw [hst]
    simp
  · have hone : setJoined p.id p =
        { p with status := ParticipantStatus.JOINED, leftAt := none } := by
      simp [setJoined]
    exact hone ▸ List.mem_map_of_mem (setJoined p.id) hmem

/-- C4 witness: user "B" holds a LEFT row on an event that is closed to
joining, protected by a join code "B" does not supply, and already at
capacity; the rejoin still succeeds and updates row "p1". -/
theorem joinEvent_left_always_rejoins_witness :
    joinEvent leftRowHostileDB (some "B") "e1" none "r2" "t2" =
      .ok { leftRowHostileDB with
              participants := leftRowHostileDB.participants.map (setJoined "p1") } ∧
    mkRow "p1" "e1" "B" ParticipantStatus.JOINED "ATTENDEE" ∈
      leftRowHostileDB.participants.map (setJoined "p1") ∧
    (leftRowHostileDB.participants.map (setJoined "p1")).length =
      leftRowHostileDB.participants.length :=
  joinEvent_left_always_rejoins leftRowHostileDB "B" "e1" none "r2" "t2"
    { baseEvent with maxAttendees := some 1, joinCode := some "zzz" }
    { mkRow "p1" "e1" "B" ParticipantStatus.LEFT "ATTENDEE" with leftAt := some "t1" }
    (by rfl) (by rfl) (by rfl)

/-- C6 (amended): for an event with a non-null cap N where N ≠ 0 (the
handler's `maxAttendees && ...` truthiness skips N = 0) and a fresh
requester who passes the allowJoining and join-code checks, `joinEvent`
fails with BadRequest whenever the count of currently-JOINED participants
is ≥ N. -/
theorem joinEvent_capacity_enforced
    (db : DB) (uid E : String) (code : Option String) (rid now : String)
    (event : Event) (N : Int)
    (hev : findEvent db E = some event)
    (hmax : event.maxAttendees = some N) (hN : N ≠ 0)
    (hfresh : findParticipation db E uid = none)
    (hallow : event.allowJoining = true ∨ event.creatorId = uid)
    (hcode : event.joinCode = none ∨ event.joinCode = code)
    (hcap : N ≤ (countJoined db E : Int)) :
    joinEvent db (some uid) E code rid now =
      .error (.BadRequest "This event has reached maximum capacity") := by
  have hid := findEvent_id hev
  have h1 : ¬((!event.allowJoining && !(event.creatorId == uid)) = true) := by
    rcases hallow with h | h <;> simp [h]
  have h2 : ¬((jsTruthyStr event.joinCode && !(event.joinCode == code)) = true) := by
    rcases hcode with h | h <;> simp [h, jsTruthyStr]
  have h3 : jsTruthyInt event.maxAttendees = true ∧
      (event.maxAttendees.getD 0 : Int) ≤ (countJoined db event.id : Int) := by
    refine ⟨by simp [hmax, jsTruthyInt, hN], ?_⟩
    rw [hmax, hid]
    simpa using hcap
  simp only [joinEvent, hev, hfresh, joinCreate]
  rw [if_neg h1, if_neg h2, if_pos h3]

/-- C6 witness: a fresh requester against a joinable event with cap 1 whose
single slot is taken is rejected with the capacity BadRequest. -/
theorem joinEvent_capacity_enforced_witness :
    joinEvent capOneFullDB (some "B") "e1" none "r1" "t1" =
      .error (.BadRequest "This event has reached maximum capacity") :=
  joinEvent_capacity_enforced capOneFullDB "B" "e1" none "r1" "t1"
    { baseEvent with allowJoining := true, maxAttendees := some 1 } 1
    (by rfl) (by rfl) (by decide) (by rfl) (Or.inl rfl) (Or.inl rfl) (by decide)

/-- C7 (amended): for an event whose join code is non-null AND non-empty
(the handler's `if (eventWithCount.joinCode)` truthiness skips the empty
string) and a fresh requester who passes the allowJoining check, joinEvent
fails with Forbidden when the supplied code is absent or different —
regardless of capacity, i.e. the join-code check fires before the capacity
check, and with no creator exemption — and succeeds with a new JOINED row
when the exact code is supplied and capacity permits. -/
theorem joinEvent_join_code_enforced
    (db : DB) (uid E : String) (code : Option String) (rid now : String)
    (event : Event) (c : String)
    (hev : findEvent db E = some event)
    (hjc : event.joinCode = some c) (hc : c ≠ "")
    (hfresh : findParticipation db E uid = none)
    (hallow : event.allowJoining = true ∨ event.creatorId = uid) :
    (code ≠ some c →
      joinEvent db (some uid) E code rid now = .error (.Forbidden "Invalid join code")) ∧
    (code = some c →
      ¬(jsTruthyInt event.maxAttendees = true ∧
          (event.maxAttendees.getD 0 : Int) ≤ (countJoined db E : Int)) →
      joinEvent db (some uid) E code rid now =
        .ok { db with
                participants := db.participants ++
                  [newJoinRow rid E uid
                    (if event.creatorId == uid then "ADMIN" else "ATTENDEE") now] }) := by
  have hid := findEvent_id hev
  have h1 : ¬((!event.allowJoining && !(event.creatorId == uid)) = true) := by
    rcases hallow with h | h <;> simp [h]
  constructor
  · intro hne
    have h2 : (jsTruthyStr event.joinCode && !(event.joinCode == code)) = true := by
      rw [hjc]
      simp [jsTruthyStr, hc, beq_eq_false_iff_ne]
      exact fun h => hne h.symm
    simp only [joinEvent, hev, hfresh, joinCreate]
    rw [if_neg h1, if_pos h2]
  · intro heq hcapneg
    have h2 : ¬((jsTruthyStr event.joinCode && !(event.joinCode == code)) = true) := by
      simp [hjc, heq]
    have h3 : ¬(jsTruthyInt event.maxAttendees = true ∧
        (event.maxAttendees.getD 0 : Int) ≤ (countJoined db event.id : Int)) := by
      rw [hid]; exact hcapneg
    simp only [joinEvent, hev, hfresh, joinCreate]
    rw [if_neg h1, if_neg h2, if_neg h3, hid, hfresh]

/-- C7 witness: a fresh requester supplying no code against a joinable
event with join code "zzz" is rejected with Forbidden; the matching-code
success branch is vacuous at this input. -/
theorem joinEvent_join_code_enforced_witness :
    ((none : Option String) ≠ some "zzz" →
      joinEvent codeZzzDB (some "B") "e1" none "r1" "t1" =
        .error (.Forbidden "Invalid join code")) ∧
    ((none : Option String) = some "zzz" →
      ¬(jsTruthyInt codeZzzEvent.maxAttendees = true ∧
          (codeZzzEvent.maxAttendees.getD 0 : Int) ≤ (countJoined codeZzzDB "e1" : Int)) →
      joinEvent codeZzzDB (some "B") "e1" none "r1" "t1" =
        .ok { codeZzzDB with
                participants := codeZzzDB.participants ++
                  [newJoinRow "r1" "e1" "B"
                    (if codeZzzEvent.creatorId == "B" then "ADMIN" else "ATTENDEE") "t1"] }) :=
  joinEvent_join_code_enforced codeZzzDB "B" "e1" none "r1" "t1" codeZzzEvent "zzz"
    (by rfl) (by rfl) (by decide) (by rfl) (Or.inl rfl)

/-- C10: a requester with an existing PENDING or DECLINED row who passes
the allowJoining/join-code/capacity checks hits the
`@@unique([eventId, userId])` constraint in the create; the untyped ORM
error is translated by the central middleware to a 500 "Server Error"
response — no status transition and no typed error of the taxonomy. -/
theorem joinEvent_pending_declined_prisma_error
    (db : DB) (uid E : String) (code : Option String) (rid now : String)
    (event : Event) (p : EventParticipant)
    (hev : findEvent db E = some event)
    (hp : findParticipation db E uid = some p)
    (hst : p.status = ParticipantStatus.PENDING ∨ p.status = ParticipantStatus.DECLINED)
    (hallow : event.allowJoining = true ∨ event.creatorId = uid)
    (hcode : event.joinCode = none ∨ event.joinCode = code)
    (hcap : ¬(jsTruthyInt event.maxAttendees = true ∧
        (event.maxAttendees.getD 0 : Int) ≤ (countJoined db E : Int))) :
    joinEvent db (some uid) E code rid now =
      .error (.PrismaError "Unique constraint failed on the fields: eventId, userId") ∧
    ApiError.statusCode
        (.PrismaError "Unique constraint failed on the fields: eventId, userId") = 500 ∧
    ApiError.responseMessage
        (.PrismaError "Unique constraint failed on the fields: eventId, userId") =
      "Server Error" := by
  have hid := findEvent_id hev
  have hj : (p.status == ParticipantStatus.JOINED) = false := by
    rcases hst with h | h <;> simp [h]
  have hl : (p.status == ParticipantStatus.LEFT) = false := by
    rcases hst with h | h <;> simp [h]
  have h1 : ¬((!event.allowJoining && !(event.creatorId == uid)) = true) := by
    rcases hallow with h | h <;> simp [h]
  have h2 : ¬((jsTruthyStr event.joinCode && !(event.joinCode == code)) = true) := by
    rcases hcode with h | h <;> simp [h, jsTruthyStr]
  have h3 : ¬(jsTruthyInt event.maxAttendees = true ∧
      (event.maxAttendees.getD 0 : Int) ≤ (countJoined db event.id : Int)) := by
    rw [hid]; exact hcap
  refine ⟨?_, rfl, rfl⟩
  simp only [joinEvent, hev, hp, hj, hl, joinCreate]
  rw [if_neg h1, if_neg h2, if_neg h3, hid, hp]
  simp

/-- C10 witness: user "B" with a PENDING row on a joinable event without
code or cap gets the unique-constraint server error on join. -/
theorem joinEvent_pending_declined_prisma_error_witness :
    joinEvent pendingRowDB (some "B") "e1" none "r2" "t2" =
      .error (.PrismaError "Unique constraint failed on the fields: eventId, userId") ∧
    ApiError.statusCode
        (.PrismaError "Unique constraint failed on the fields: eventId, userId") = 500 ∧
    ApiError.responseMessage
        (.PrismaError "Unique constraint failed on the fields: eventId, userId") =
      "Server Error" :=
  joinEvent_pending_declined_prisma_error pendingRowDB "B" "e1" none "r2" "t2"
    { baseEvent with allowJoining := true }
    (mkRow "p1" "e1" "B" ParticipantStatus.PENDING "ATTENDEE")
    (by rfl) (by rfl) (Or.inl rfl) (Or.inl rfl) (Or.inl rfl) (by decide)

/-- C8: for an existing event and an authenticated requester with a file,
the upload records the media against the event iff the requester holds a
membership row with status JOINED for that event; without such a row the
request is Forbidden. -/
theorem uploadImageToEvent_requires_joined
    (db : DB) (uid : String) (f : UploadFile) (E : String) (desc : Option String)
    (nid url pid : String) (event : Event)
    (hev : findEvent db E = some event) :
    (uploadImageToEvent db (some uid) (some f) E desc nid url pid =
        .ok { db with images := db.images ++ [uploadedImage nid url pid uid E desc f] }
      ↔ ∃ p ∈ db.participants,
          p.eventId = E ∧ p.userId = uid ∧ p.status = ParticipantStatus.JOINED) ∧
    ((¬∃ p ∈ db.participants,
        p.eventId = E ∧ p.userId = uid ∧ p.status = ParticipantStatus.JOINED) →
      uploadImageToEvent db (some uid) (some f) E desc nid url pid =
        .error (.Forbidden "Access")) := by
  cases hfp : db.participants.find?
      (fun p => p.eventId == E && p.userId == uid
        && p.status == ParticipantStatus.JOINED) with
  | none =>
    have hno : ¬∃ p ∈ db.participants,
        p.eventId = E ∧ p.userId = uid ∧ p.status = ParticipantStatus.JOINED := by
      rw [List.find?_eq_none] at hfp
      rintro ⟨p, hpmem, h1, h2, h3⟩
      exact hfp p hpmem (by simp [h1, h2, h3])
    have hres : uploadImageToEvent db (some uid) (some f) E desc nid url pid =
        .error (.Forbidden "Access") := by
      simp only [uploadImageToEvent, hev, hfp]
    refine ⟨?_, fun _ => hres⟩
    rw [hres]
    simp only [false_iff, reduceCtorEq]
    exact hno
  | some q =>
    have hq := List.find?_some hfp
    have hqmem := List.mem_of_find?_eq_some hfp
    simp only [Bool.and_eq_true, beq_iff_eq] at hq
    have hyes : ∃ p ∈ db.participants,
        p.eventId = E ∧ p.userId = uid ∧ p.status = ParticipantStatus.JOINED :=
      ⟨q, hqmem, hq.1.1, hq.1.2, hq.2⟩
    have hres : uploadImageToEvent db (some uid) (some f) E desc nid url pid =
        .ok { db with images := db.images ++ [uploadedImage nid url pid uid E desc f] } := by
      simp only [uploadImageToEvent, hev, hfp]
    exact ⟨by rw [hres]; simp only [true_iff]; exact hyes, fun h => absurd hyes h⟩

/-- C8 witness: on a store where creator "A" is JOINED and "B" only has a
LEFT row, "A"'s upload is recorded and "B"'s upload is rejected; applied at
requester "A". -/
theorem uploadImageToEvent_requires_joined_witness :
    (uploadImageToEvent uploadDB (some "A") (some { mimetype := "image/png" }) "e1" none
        "i1" "u" "pu" =
        .ok { uploadDB with
                images := uploadDB.images ++
                  [uploadedImage "i1" "u" "pu" "A" "e1" none { mimetype := "image/png" }] }
      ↔ ∃ p ∈ uploadDB.participants,
          p.eventId = "e1" ∧ p.userId = "A" ∧ p.status = ParticipantStatus.JOINED) ∧
    ((¬∃ p ∈ uploadDB.participants,
        p.eventId = "e1" ∧ p.userId = "A" ∧ p.status = ParticipantStatus.JOINED) →
      uploadImageToEvent uploadDB (some "A") (some { mimetype := "image/png" }) "e1" none
        "i1" "u" "pu" = .error (.Forbidden "Access")) :=
  uploadImageToEvent_requires_joined uploadDB "A" { mimetype := "image/png" } "e1" none
    "i1" "u" "pu" { baseEvent with allowJoining := true } (by rfl)

/-- C9: the creator's delete succeeds and equals deleting the event's
membership rows first, then its media rows, then the event row, in that
order; afterwards no membership or media row references the event and any
requester's read returns NotFound. -/
theorem deleteEvent_cascade
    (db : DB) (uid X : String) (event : Event)
    (hev : findEvent db X = some event)
    (hcr : event.creatorId = uid) :
    deleteEvent db (some uid) X =
      .ok (deleteEventRow (deleteImagesFor (deleteParticipantsFor db X) X) X) ∧
    (∀ p ∈ (deleteEventRow (deleteImagesFor (deleteParticipantsFor db X) X) X).participants,
      p.eventId ≠ X) ∧
    (∀ i ∈ (deleteEventRow (deleteImagesFor (deleteParticipantsFor db X) X) X).images,
      i.eventId ≠ some X) ∧
    (∀ u, getEventById (deleteEventRow (deleteImagesFor (deleteParticipantsFor db X) X) X)
        u X = .error (.NotFound "Event")) := by
  refine ⟨?_, ?_, ?_, ?_⟩
  · simp only [deleteEvent, hev, hcr]
    simp
  · intro p hp
    simp only [deleteEventRow, deleteImagesFor, deleteParticipantsFor, List.mem_filter,
      Bool.not_eq_eq_eq_not, Bool.not_true, beq_eq_false_iff_ne] at hp
    exact hp.2
  · intro i hi
    simp only [deleteEventRow, deleteImagesFor, deleteParticipantsFor, List.mem_filter,
      Bool.not_eq_eq_eq_not, Bool.not_true, beq_eq_false_iff_ne] at hi
    exact hi.2
  · intro u
    have hnone : findEvent
        (deleteEventRow (deleteImagesFor (deleteParticipantsFor db X) X) X) X = none := by
      unfold findEvent
      rw [List.find?_eq_none]
      intro e he
      simp only [deleteEventRow, deleteImagesFor, deleteParticipantsFor, List.mem_filter,
        Bool.not_eq_eq_eq_not, Bool.not_true, beq_eq_false_iff_ne] at he
      simp [he.2]
    simp only [getEventById, hnone]

/-- C9 witness: deleting a store holding the event, its creator membership
and one attached image leaves no row referencing the event and makes the
read NotFound. -/
theorem deleteEvent_cascade_witness :
    deleteEvent deletableDB (some "A") "e1" =
      .ok (deleteEventRow (deleteImagesFor (deleteParticipantsFor deletableDB "e1") "e1")
            "e1") ∧
    getEventById
        (deleteEventRow (deleteImagesFor (deleteParticipantsFor deletableDB "e1") "e1") "e1")
        none "e1" = .error (.NotFound "Event") :=
  ⟨(deleteEvent_cascade deletableDB "A" "e1" baseEvent (by rfl) rfl).1,
   (deleteEvent_cascade deletableDB "A" "e1" baseEvent (by rfl) rfl).2.2.2 none⟩

/-- The row rewrites performed by join/leave preserve the row's pair and
role and only ever move the status to JOINED or LEFT. -/
def rowUpdateSafe (f : EventParticipant → EventParticipant) : Prop :=
  ∀ p, (f p).eventId = p.eventId ∧ (f p).userId = p.userId ∧ (f p).role = p.role ∧
    ((f p).status = p.status ∨ (f p).status = ParticipantStatus.JOINED ∨
      (f p).status = ParticipantStatus.LEFT)

lemma setJoined_safe (tid : String) : rowUpdateSafe (setJoined tid) := by
  intro p
  unfold setJoined
  split
  · exact ⟨rfl, rfl, rfl, Or.inr (Or.inl rfl)⟩
  · exact ⟨rfl, rfl, rfl, Or.inl rfl⟩

lemma setLeft_safe (tid t : String) : rowUpdateSafe (setLeft tid t) := by
  intro p
  unfold setLeft
  split
  · exact ⟨rfl, rfl, rfl, Or.inr (Or.inr rfl)⟩
  · exact ⟨rfl, rfl, rfl, Or.inl rfl⟩

/-- A successful `joinCreate` appends one fresh JOINED row for a pair that
had no row, and touches nothing else. -/
lemma joinCreate_ok {db : DB} {uid : String} {event : Event} {code : Option String}
    {rid now : String} {db' : DB}
    (h : joinCreate db uid event code rid now = .ok db') :
    findParticipation db event.id uid = none ∧
    db'.events = db.events ∧ db'.images = db.images ∧
    ∃ role, db'.participants = db.participants ++ [newJoinRow rid event.id uid role now] := by
  unfold joinCreate at h
  split at h
  · simp at h
  · split at h
    · simp at h
    · split at h
      · simp at h
      · cases hfp : findParticipation db event.id uid with
        | some q => rw [hfp] at h; simp at h
        | none =>
          rw [hfp] at h
          simp only [Except.ok.injEq] at h
          subst h
          exact ⟨rfl, rfl, rfl, ⟨_, rfl⟩⟩

/-- A successful `joinEvent` either flips one existing row back to JOINED
or appends one fresh JOINED row for a pair that had no row; events and
images are untouched. -/
lemma joinEvent_ok_cases {db : DB} {uid E : String} {code : Option String}
    {rid now : String} {db' : DB}
    (h : joinEvent db (some uid) E code rid now = .ok db') :
    db'.events = db.events ∧ db'.images = db.images ∧
    ((∃ tid, db'.participants = db.participants.map (setJoined tid)) ∨
     (∃ role, db'.participants = db.participants ++ [newJoinRow rid E uid role now] ∧
        findParticipation db E uid = none)) := by
  cases hev : findEvent db E with
  | none =>
    simp only [joinEvent, hev] at h
    exact Except.noConfusion h
  | some event =>
    have hid := findEvent_id hev
    cases hp : findParticipation db E uid with
    | some p =>
      simp only [joinEvent, hev, hp] at h
      by_cases hj : (p.status == ParticipantStatus.JOINED) = true
      · rw [if_pos hj] at h; simp at h
      · rw [if_neg hj] at h
        by_cases hl : (p.status == ParticipantStatus.LEFT) = true
        · rw [if_pos hl] at h
          simp only [Except.ok.injEq] at h
          subst h
          exact ⟨rfl, rfl, Or.inl ⟨p.id, rfl⟩⟩
        · rw [if_neg hl] at h
          have hjc := joinCreate_ok h
          rw [hid, hp] at hjc
          simp at hjc
    | none =>
      simp only [joinEvent, hev, hp] at h
      have hjc := joinCreate_ok h
      rw [hid] at hjc
      obtain ⟨hfp, hevts, himgs, role, hparts⟩ := hjc
      exact ⟨hevts, himgs, Or.inr ⟨role, hparts, rfl⟩⟩

/-- A successful `leaveEvent` flips one existing row to LEFT; events and
images are untouched. -/
lemma leaveEvent_ok_cases {db : DB} {uid E now : String} {db' : DB}
    (h : leaveEvent db (some uid) E now = .ok db') :
    db'.events = db.events ∧ db'.images = db.images ∧
    ∃ tid, db'.participants = db.participants.map (setLeft tid now) := by
  cases hfp : db.participants.find?
      (fun p => p.eventId == E && p.userId == uid
        && p.status == ParticipantStatus.JOINED) with
  | none =>
    simp only [leaveEvent, hfp] at h
    exact Except.noConfusion h
  | some p =>
    simp only [leaveEvent, hfp, Except.ok.injEq] at h
    subst h
    exact ⟨rfl, rfl, ⟨p.id, rfl⟩⟩

/-- A safe row rewrite does not change whether a row matches a pair. -/
lemma pairPred_map_safe {f : EventParticipant → EventParticipant}
    (hf : rowUpdateSafe f) (E U : String) (p : EventParticipant) :
    pairPred E U (f p) = pairPred E U p := by
  unfold pairPred
  rw [(hf p).1, (hf p).2.1]

/-- A safe row rewrite preserves the number of rows of a pair. -/
lemma length_filter_map_safe {f : EventParticipant → EventParticipant}
    (hf : rowUpdateSafe f) (l : List EventParticipant) (E U : String) :
    ((l.map f).filter (pairPred E U)).length = (l.filter (pairPred E U)).length := by
  induction l with
  | nil => rfl
  | cons a l ih =>
    simp only [List.map_cons, List.filter_cons, pairPred_map_safe hf]
    cases hpa : pairPred E U a <;> simp [hpa, ih]

/-- A safe row rewrite keeps every row of a pair inside the JOINED/LEFT
status cycle. -/
lemma statuses_filter_map_safe {f : EventParticipant → EventParticipant}
    (hf : rowUpdateSafe f) {l : List EventParticipant} {E U : String}
    (hl : ∀ p ∈ l.filter (pairPred E U),
      p.status = ParticipantStatus.JOINED ∨ p.status = ParticipantStatus.LEFT) :
    ∀ p ∈ (l.map f).filter (pairPred E U),
      p.status = ParticipantStatus.JOINED ∨ p.status = ParticipantStatus.LEFT := by
  intro p hp
  rw [List.mem_filter] at hp
  obtain ⟨hpm, hpp⟩ := hp
  rw [List.mem_map] at hpm
  obtain ⟨q, hq, rfl⟩ := hpm
  rcases (hf q).2.2.2 with hs | hs | hs
  · rw [hs]
    apply hl q
    rw [List.mem_filter]
    exact ⟨hq, by rw [← pairPred_map_safe hf E U q]; exact hpp⟩
  · exact Or.inl hs
  · exact Or.inr hs

/-- One join or leave request preserves the per-pair membership invariant. -/
lemma membershipInv_applyOp {db : DB} {E U : String}
    (h : membershipInv db E U) (op : Op) : membershipInv (applyOp db op) E U := by
  obtain ⟨hlen, hst⟩ := h
  cases op with
  | join u e c r t =>
    cases hres : joinEvent db (some u) e c r t with
    | error err => simpa [applyOp, hres] using And.intro hlen hst
    | ok db' =>
      simp only [applyOp, hres]
      obtain ⟨hevts, himgs, hcases⟩ := joinEvent_ok_cases hres
      rcases hcases with ⟨tid, hparts⟩ | ⟨role, hparts, hfresh⟩
      · unfold membershipInv pairRows at *
        rw [hparts]
        exact ⟨le_trans (le_of_eq (length_filter_map_safe (setJoined_safe tid) _ E U)) hlen,
          statuses_filter_map_safe (setJoined_safe tid) hst⟩
      · unfold membershipInv pairRows at *
        rw [hparts, List.filter_append]
        by_cases hrow : pairPred E U (newJoinRow r e u role t) = true
        · have hEU : e = E ∧ u = U := by
            unfold pairPred newJoinRow at hrow
            simpa [Bool.and_eq_true, beq_iff_eq] using hrow
          have hnil : db.participants.filter (pairPred E U) = [] := by
            rw [List.filter_eq_nil_iff]
            intro q hq
            unfold findParticipation at hfresh
            rw [List.find?_eq_none] at hfresh
            have hnq := hfresh q hq
            rw [← hEU.1, ← hEU.2]
            unfold pairPred
            exact hnq
          rw [hnil, List.nil_append]
          constructor
          · simp [List.filter_cons, hrow]
          · intro p hp
            simp only [List.filter_cons, hrow, List.filter_nil, if_true,
              List.mem_singleton] at hp
            subst hp
            exact Or.inl rfl
        · have hfil : [newJoinRow r e u role t].filter (pairPred E U) = [] := by
            simp only [List.filter_cons, hrow, List.filter_nil]
            rw [if_neg (by simp [hrow])]
          rw [hfil, List.append_nil]
          exact ⟨hlen, hst⟩
  | leave u e t =>
    cases hres : leaveEvent db (some u) e t with
    | error err => simpa [applyOp, hres] using And.intro hlen hst
    | ok db' =>
      simp only [applyOp, hres]
      obtain ⟨hevts, himgs, tid, hparts⟩ := leaveEvent_ok_cases hres
      unfold membershipInv pairRows at *
      rw [hparts]
      exact ⟨le_trans (le_of_eq (length_filter_map_safe (setLeft_safe tid t) _ E U)) hlen,
        statuses_filter_map_safe (setLeft_safe tid t) hst⟩

/-- C3: every (event, user) pair that satisfies the ledger invariant —
at most one membership row, status confined to the JOINED/LEFT cycle —
still satisfies it after ANY sequence of join and leave requests by any
users; joins rejoin by updating the existing row rather than inserting a
second one. -/
theorem joinLeave_at_most_one_membership_row
    (db : DB) (E U : String) (h : membershipInv db E U) :
    ∀ ops : List Op, membershipInv (runOps db ops) E U := by
  suffices hs : ∀ (ops : List Op) (d : DB),
      membershipInv d E U → membershipInv (runOps d ops) E U from
    fun ops => hs ops db h
  intro ops
  induction ops with
  | nil => exact fun d hd => hd
  | cons op ops ih => exact fun d hd => ih (applyOp d op) (membershipInv_applyOp hd op)

/-- C3 witness: user "A" joins, leaves and rejoins event "e1" from the
freshly created store; the pair keeps at most one row in the JOINED/LEFT
cycle throughout. -/
theorem joinLeave_at_most_one_membership_row_witness :
    membershipInv
      (runOps createdDB
        [Op.leave "A" "e1" "t1", Op.join "A" "e1" none "r2" "t2",
         Op.leave "A" "e1" "t3", Op.join "A" "e1" none "r3" "t4"])
      "e1" "A" :=
  joinLeave_at_most_one_membership_row createdDB "e1" "A"
    ⟨by decide, by decide⟩
    [Op.leave "A" "e1" "t1", Op.join "A" "e1" none "r2" "t2",
     Op.leave "A" "e1" "t3", Op.join "A" "e1" none "r3" "t4"]

/-- A safe row rewrite preserves the creator's ADMIN row. -/
lemma creatorAdminRow_map_safe {f : EventParticipant → EventParticipant}
    (hf : rowUpdateSafe f) {l : List EventParticipant} {E U : String}
    (h : ∃ p ∈ l, p.eventId = E ∧ p.userId = U ∧ p.role = "ADMIN" ∧
      (p.status = ParticipantStatus.JOINED ∨ p.status = ParticipantStatus.LEFT)) :
    ∃ p ∈ l.map f, p.eventId = E ∧ p.userId = U ∧ p.role = "ADMIN" ∧
      (p.status = ParticipantStatus.JOINED ∨ p.status = ParticipantStatus.LEFT) := by
  obtain ⟨p, hp, h1, h2, h3, h4⟩ := h
  refine ⟨f p, List.mem_map_of_mem f hp, ?_, ?_, ?_, ?_⟩
  · rw [(hf p).1]; exact h1
  · rw [(hf p).2.1]; exact h2
  · rw [(hf p).2.2.1]; exact h3
  · rcases (hf p).2.2.2 with hs | hs | hs
    · rw [hs]; exact h4
    · exact Or.inl hs
    · exact Or.inr hs

/-- One join or leave request preserves the creator's ADMIN row. -/
lemma creatorAdminRow_applyOp {db : DB} {E U : String}
    (h : creatorAdminRow db E U) (op : Op) : creatorAdminRow (applyOp db op) E U := by
  cases op with
  | join u e c r t =>
    cases hres : joinEvent db (some u) e c r t with
    | error err => simpa [applyOp, hres] using h
    | ok db' =>
      simp only [applyOp, hres]
      obtain ⟨hevts, himgs, hcases⟩ := joinEvent_ok_cases hres
      unfold creatorAdminRow at h ⊢
      rcases hcases with ⟨tid, hparts⟩ | ⟨role, hparts, hfresh⟩
      · rw [hparts]
        exact creatorAdminRow_map_safe (setJoined_safe tid) h
      · rw [hparts]
        obtain ⟨p, hp, hrest⟩ := h
        exact ⟨p, List.mem_append_left _ hp, hrest⟩
  | leave u e t =>
    cases hres : leaveEvent db (some u) e t with
    | error err => simpa [applyOp, hres] using h
    | ok db' =>
      simp only [applyOp, hres]
      obtain ⟨hevts, himgs, tid, hparts⟩ := leaveEvent_ok_cases hres
      unfold creatorAdminRow at h ⊢
      rw [hparts]
      exact creatorAdminRow_map_safe (setLeft_safe tid t) h

/-- C2 (amended): event creation gives the creator a JOINED ADMIN row, and
after any sequence of join/leave requests the creator still holds a
membership row with role ADMIN whose status is JOINED or LEFT — but JOINED
itself is not invariant, because the creator's own leave (see the
counterexample) moves the row to LEFT. -/
theorem createEvent_creator_admin_row
    (db0 : DB) (uid : String) (input : CreateEventInput) (eid pid now : String) (db1 : DB)
    (hcreate : createEvent db0 (some uid) input eid pid now = .ok db1) :
    (∃ p ∈ db1.participants, p.eventId = eid ∧ p.userId = uid ∧ p.role = "ADMIN" ∧
       p.status = ParticipantStatus.JOINED) ∧
    ∀ ops : List Op, creatorAdminRow (runOps db1 ops) eid uid := by
  have hbase : ∃ p ∈ db1.participants, p.eventId = eid ∧ p.userId = uid ∧
      p.role = "ADMIN" ∧ p.status = ParticipantStatus.JOINED := by
    by_cases hn : jsTruthyStr input.name = true
    · simp only [createEvent, hn, Bool.not_true, Bool.false_eq_true, if_false,
        Except.ok.injEq] at hcreate
      subst hcreate
      exact ⟨_, List.mem_append_right _ (List.mem_singleton_self _), rfl, rfl, rfl, rfl⟩
    · simp only [createEvent, Bool.not_eq_true] at hn
      simp only [createEvent, hn, Bool.not_false, if_true] at hcreate
      exact Except.noConfusion hcreate
  refine ⟨hbase, ?_⟩
  have hinv : creatorAdminRow db1 eid uid := by
    obtain ⟨p, hp, h1, h2, h3, h4⟩ := hbase
    exact ⟨p, hp, h1, h2, h3, Or.inl h4⟩
  suffices hs : ∀ (ops : List Op) (d : DB),
      creatorAdminRow d eid uid → creatorAdminRow (runOps d ops) eid uid from
    fun ops => hs ops db1 hinv
  intro ops
  induction ops with
  | nil => exact fun d hd => hd
  | cons op ops ih => exact fun d hd => ih (applyOp d op) (creatorAdminRow_applyOp hd op)

/-- C2 witness: after creating "e1" and running a leave and a rejoin by the
creator, the creator still holds an ADMIN row in the JOINED/LEFT cycle. -/
theorem createEvent_creator_admin_row_witness :
    creatorAdminRow
      (runOps createdDB [Op.leave "A" "e1" "t1", Op.join "A" "e1" none "r2" "t2"])
      "e1" "A" :=
  (createEvent_creator_admin_row emptyDB "A" reunionInput "e1" "p1" "t0" createdDB
      (by rfl)).2
    [Op.leave "A" "e1" "t1", Op.join "A" "e1" none "r2" "t2"]
